import Mathlib

/-!
# Verification of the vulkan_tutorial renderer

Shallow embedding of the host-side logic of `src/vulkan_tutorial`:
initialization call order (`Application::InitializeVulkan`), swapchain
image-count selection (`Application::CreateSwapChain`), memory-type lookup
(`PhysicalDeviceInfo::FindMemoryTypeIndex` / `GetMemoryTypeIndex`),
image-layout transitions (`Application::TransitionImageLayout`), mip-chain
generation (`Application::GenerateMipMaps_Blit`), device scoring and
selection (`PhysicalDeviceInfo::RateDevice`, `Application::PickPhysicalDevice`),
present-mode choice (`Application::ChoosePresentMode`), model loading
(`Application::LoadModel`) and per-frame synchronization
(`Application::CreateSyncObjects`, `Application::DrawFrame`).
Machine integers are modelled as `Nat` (all the quantities involved are
unsigned and small); where 32-bit overflow could matter the reduction
modulo `2 ^ 32` is written explicitly.
-/

namespace VulkanTutorial

/-! ## Initialization order (`Application::InitializeVulkan`) -/

/-- The member functions called by `Application::InitializeVulkan`, in
declaration order of the enum. -/
inductive InitStep where
  | createInstance
  | annotateInitialize
  | setupDebugMessenger
  | createSurface
  | pickPhysicalDevice
  | createDevice
  | createSwapChain
  | createSwapChainImageViews
  | createRenderPass
  | createDescriptorSetLayout
  | createGraphicsPipeline
  | createCommandPools
  | createTextureImages
  | createColorResources
  | createDepthResources
  | createFrameBuffers
  | loadModel
  | createVertexBuffers
  | createIndexBuffers
  | createUniformBuffers
  | createDescriptorPool
  | createDescriptorSets
  | createCommandBuffers
  | createSyncObjects
deriving DecidableEq, Repr

/-- The exact sequence of calls made by `Application::InitializeVulkan`
(application.cpp, lines 1284-1309). -/
def initializeVulkan : List InitStep :=
  [ .createInstance
  , .annotateInitialize
  , .setupDebugMessenger
  , .createSurface
  , .pickPhysicalDevice
  , .createDevice
  , .createSwapChain
  , .createSwapChainImageViews
  , .createRenderPass
  , .createDescriptorSetLayout
  , .createGraphicsPipeline
  , .createCommandPools
  , .createTextureImages
  , .createColorResources
  , .createDepthResources
  , .createFrameBuffers
  , .loadModel
  , .createVertexBuffers
  , .createIndexBuffers
  , .createUniformBuffers
  , .createDescriptorPool
  , .createDescriptorSets
  , .createCommandBuffers
  , .createSyncObjects ]

/-- Position of a step in the initialization sequence. -/
def initIndex (s : InitStep) : Nat := initializeVulkan.indexOf s

/-! ## Swapchain image count (`Application::CreateSwapChain`) -/

/-- One `ui32` is 32 bits wide. -/
def u32Mod : Nat := 2 ^ 32

/-- The requested swapchain image count, from `Application::CreateSwapChain`
(application.cpp, lines 301-305): `image_count = minImageCount + 1` (32-bit
unsigned arithmetic), clamped down to `maxImageCount` when that bound is
nonzero and exceeded. -/
def chooseImageCount (minImageCount maxImageCount : Nat) : Nat :=
  let image_count := (minImageCount + 1) % u32Mod
  if maxImageCount > 0 ∧ image_count > maxImageCount then maxImageCount
  else image_count

/-! ## Memory type selection (`PhysicalDeviceInfo`) -/

/-- Loop of `PhysicalDeviceInfo::FindMemoryTypeIndex`
(physical_device_info.cpp, lines 30-40): scan the remaining memory types in
order, the counter starting at `i`; a type matches when its bit is set in
`filter` and its property flags contain every bit of `required`. -/
def findMemLoop (filter required : Nat) : Nat → List Nat → Option Nat
  | _, [] => none
  | i, t :: rest =>
      if filter &&& (1 <<< i) ≠ 0 ∧ t &&& required = required then some i
      else findMemLoop filter required (i + 1) rest

/-- `PhysicalDeviceInfo::FindMemoryTypeIndex`: the device's memory types are
given as the list of their `propertyFlags` bitmasks, indexed from 0. -/
def FindMemoryTypeIndex (types : List Nat) (filter required : Nat) :
    Option Nat :=
  findMemLoop filter required 0 types

/-- `PhysicalDeviceInfo::GetMemoryTypeIndex`
(physical_device_info.cpp, lines 42-51): unwrap the found index or throw. -/
def GetMemoryTypeIndex (types : List Nat) (filter required : Nat) :
    Except String Nat :=
  match FindMemoryTypeIndex types filter required with
  | some index => .ok index
  | none => .error "failed to find memory type index"

/-- Index `i` names a suitable memory type: it is in range, its bit is set
in `filter`, and its property flags contain all of `required`. -/
def MemTypeOk (types : List Nat) (filter required i : Nat) : Prop :=
  ∃ t, types.get? i = some t ∧
    filter &&& (1 <<< i) ≠ 0 ∧ t &&& required = required

instance (types : List Nat) (filter required i : Nat) :
    Decidable (MemTypeOk types filter required i) :=
  decidable_of_iff (∃ t ∈ types.get? i,
      filter &&& (1 <<< i) ≠ 0 ∧ t &&& required = required)
    (by simp [MemTypeOk, Option.mem_def])

/-! ## Image layout transitions (`Application::TransitionImageLayout`) -/

/-- The image layouts the application manipulates (a representative finite
subset of `VkImageLayout`, containing every value the code compares
against). -/
inductive VkImageLayout where
  | undefined
  | general
  | colorAttachmentOptimal
  | depthStencilAttachmentOptimal
  | depthStencilReadOnlyOptimal
  | shaderReadOnlyOptimal
  | transferSrcOptimal
  | transferDstOptimal
  | preinitialized
  | presentSrcKHR
deriving DecidableEq, Repr

/-- The image formats the application manipulates (a representative finite
subset of `VkFormat`). -/
inductive VkFormat where
  | r8g8b8a8Srgb
  | b8g8r8a8Srgb
  | d32Sfloat
  | d32SfloatS8Uint
  | d24UnormS8Uint
deriving DecidableEq, Repr

/-- `VulkanUtility::FormatHasStencilComponent` (vulkan_utility.h,
lines 64-67). -/
def FormatHasStencilComponent (format : VkFormat) : Bool :=
  format == VkFormat.d32SfloatS8Uint || format == VkFormat.d24UnormS8Uint

/-! Vulkan flag values used by the embedded functions. -/

def VK_IMAGE_ASPECT_COLOR_BIT : Nat := 1
def VK_IMAGE_ASPECT_DEPTH_BIT : Nat := 2
def VK_IMAGE_ASPECT_STENCIL_BIT : Nat := 4
def VK_ACCESS_SHADER_READ_BIT : Nat := 32
def VK_ACCESS_DEPTH_STENCIL_ATTACHMENT_READ_BIT : Nat := 512
def VK_ACCESS_DEPTH_STENCIL_ATTACHMENT_WRITE_BIT : Nat := 1024
def VK_ACCESS_TRANSFER_READ_BIT : Nat := 2048
def VK_ACCESS_TRANSFER_WRITE_BIT : Nat := 4096
def VK_PIPELINE_STAGE_TOP_OF_PIPE_BIT : Nat := 1
def VK_PIPELINE_STAGE_FRAGMENT_SHADER_BIT : Nat := 128
def VK_PIPELINE_STAGE_EARLY_FRAGMENT_TESTS_BIT : Nat := 256
def VK_PIPELINE_STAGE_TRANSFER_BIT : Nat := 4096

/-- The fields of a `VkImageMemoryBarrier` that the code fills in. -/
structure ImageMemoryBarrier where
  oldLayout : VkImageLayout
  newLayout : VkImageLayout
  aspectMask : Nat
  baseMipLevel : Nat
  levelCount : Nat
  layerCount : Nat
  srcAccessMask : Nat
  dstAccessMask : Nat
deriving DecidableEq, Repr

/-- A command recorded into a command buffer (only the ones these
functions record). -/
inductive Cmd where
  | pipelineBarrier (srcStage dstStage : Nat) (barrier : ImageMemoryBarrier)
deriving DecidableEq, Repr

/-- `Application::TransitionImageLayout` (application.cpp, lines
1044-1112): build the barrier, pick access masks and stages according to
the `(old_layout, new_layout)` pair, and record one `vkCmdPipelineBarrier`;
any unsupported pair throws `std::invalid_argument` before anything is
recorded, so on error no command is produced. -/
def TransitionImageLayout (format : VkFormat)
    (old_layout new_layout : VkImageLayout) (mip_levels : Nat) :
    Except String Cmd :=
  let aspect :=
    if new_layout = VkImageLayout.depthStencilAttachmentOptimal then
      if FormatHasStencilComponent format then
        VK_IMAGE_ASPECT_DEPTH_BIT ||| VK_IMAGE_ASPECT_STENCIL_BIT
      else VK_IMAGE_ASPECT_DEPTH_BIT
    else VK_IMAGE_ASPECT_COLOR_BIT
  let mk := fun srcAccess dstAccess srcStage dstStage =>
    Cmd.pipelineBarrier srcStage dstStage
      { oldLayout := old_layout, newLayout := new_layout,
        aspectMask := aspect, baseMipLevel := 0, levelCount := mip_levels,
        layerCount := 1, srcAccessMask := srcAccess,
        dstAccessMask := dstAccess }
  if old_layout = VkImageLayout.undefined ∧
      new_layout = VkImageLayout.transferDstOptimal then
    .ok (mk 0 VK_ACCESS_TRANSFER_WRITE_BIT
      VK_PIPELINE_STAGE_TOP_OF_PIPE_BIT VK_PIPELINE_STAGE_TRANSFER_BIT)
  else if old_layout = VkImageLayout.undefined ∧
      new_layout = VkImageLayout.depthStencilAttachmentOptimal then
    .ok (mk 0 (VK_ACCESS_DEPTH_STENCIL_ATTACHMENT_READ_BIT |||
        VK_ACCESS_DEPTH_STENCIL_ATTACHMENT_WRITE_BIT)
      VK_PIPELINE_STAGE_TOP_OF_PIPE_BIT
      VK_PIPELINE_STAGE_EARLY_FRAGMENT_TESTS_BIT)
  else if old_layout = VkImageLayout.transferDstOptimal ∧
      new_layout = VkImageLayout.shaderReadOnlyOptimal then
    .ok (mk VK_ACCESS_TRANSFER_WRITE_BIT VK_ACCESS_SHADER_READ_BIT
      VK_PIPELINE_STAGE_TRANSFER_BIT VK_PIPELINE_STAGE_FRAGMENT_SHADER_BIT)
  else
    .error "unsupported layout transition"

/-- The three `(old_layout, new_layout)` pairs the code supports. -/
def SupportedTransition (old_layout new_layout : VkImageLayout) : Prop :=
  (old_layout = VkImageLayout.undefined ∧
    new_layout = VkImageLayout.transferDstOptimal) ∨
  (old_layout = VkImageLayout.undefined ∧
    new_layout = VkImageLayout.depthStencilAttachmentOptimal) ∨
  (old_layout = VkImageLayout.transferDstOptimal ∧
    new_layout = VkImageLayout.shaderReadOnlyOptimal)

instance (old_layout new_layout : VkImageLayout) :
    Decidable (SupportedTransition old_layout new_layout) := by
  unfold SupportedTransition; infer_instance

/-! ## Physical device scoring and selection -/

/-- The presentation modes of `VkPresentModeKHR`. -/
inductive VkPresentModeKHR where
  | immediate
  | mailbox
  | fifo
  | fifoRelaxed
  | sharedDemandRefresh
  | sharedContinuousRefresh
deriving DecidableEq, Repr

/-- A `VkSurfaceFormatKHR` (format and color space, as raw enums). -/
structure VkSurfaceFormatKHR where
  format : Nat
  colorSpace : Nat
deriving DecidableEq, Repr

/-- One queue family, reduced to the two capabilities the selection logic
reads: the `VK_QUEUE_GRAPHICS_BIT` flag and
`VulkanUtility::DeviceSupportsPresentation` for its index. -/
structure QueueFamily where
  graphics : Bool
  present : Bool
deriving DecidableEq, Repr

/-- The fields of `PhysicalDeviceInfo` (and of the companion
`DeviceSurfaceInfo`) that device selection reads. -/
structure PhysicalDeviceInfo where
  families_properties : List QueueFamily
  isDiscreteGpu : Bool
  samplerAnisotropy : Bool
  extensions : List String
  formats : List VkSurfaceFormatKHR
  present_modes : List VkPresentModeKHR
deriving DecidableEq, Repr

/-- The loop of `PhysicalDeviceInfo::PopulateIndexCache`
(physical_device_info.cpp, lines 114-132): `i` counts from 0; each family
may overwrite `graphics_fi_` and `present_fi_`; the loop breaks as soon as
both are set. -/
def populateIndexLoop : List QueueFamily → Int → Int → Int → Int × Int
  | [], _, g, p => (g, p)
  | f :: rest, i, g, p =>
      let g' := if f.graphics then i else g
      let p' := if f.present then i else p
      if g' ≠ -1 ∧ p' ≠ -1 then (g', p')
      else populateIndexLoop rest (i + 1) g' p'

/-- `PhysicalDeviceInfo::PopulateIndexCache`: `(graphics_fi_, present_fi_)`
after the scan, both starting at `-1`. -/
def PopulateIndexCache (families : List QueueFamily) : Int × Int :=
  populateIndexLoop families 0 (-1) (-1)

/-- `PhysicalDeviceInfo::HasAllRequired` (physical_device_info.h,
lines 19-27): both cached indices differ from `-1`. -/
def HasAllRequired (d : PhysicalDeviceInfo) : Prop :=
  (PopulateIndexCache d.families_properties).1 ≠ -1 ∧
    (PopulateIndexCache d.families_properties).2 ≠ -1

instance (d : PhysicalDeviceInfo) : Decidable (HasAllRequired d) := by
  unfold HasAllRequired; infer_instance

/-- `PhysicalDeviceInfo::RateDevice` (physical_device_info.cpp, lines
134-151): `-1` without the required queue families, otherwise
1000 for a discrete GPU plus 100 for sampler anisotropy. -/
def RateDevice (d : PhysicalDeviceInfo) : Int :=
  if ¬ HasAllRequired d then -1
  else (if d.isDiscreteGpu then 1000 else 0) +
    (if d.samplerAnisotropy then 100 else 0)

/-- `PhysicalDeviceInfo::HasExtension` (physical_device_info.cpp, lines
20-28). -/
def HasExtension (d : PhysicalDeviceInfo) (name : String) : Bool :=
  d.extensions.any (fun ext => name == ext)

/-- The filter applied by `Application::PickPhysicalDevice`
(application.cpp, lines 170-187) before scoring: every required device
extension is present and the surface reports at least one format and one
present mode. -/
def consideredDevice (required_extensions : List String)
    (d : PhysicalDeviceInfo) : Bool :=
  required_extensions.all (fun e => HasExtension d e) &&
    !d.formats.isEmpty && !d.present_modes.isEmpty

/-- A `PhysicalDeviceInfo` default-constructed as in
`Application::PickPhysicalDevice` before the loop. -/
def defaultDeviceInfo : PhysicalDeviceInfo :=
  { families_properties := [], isDiscreteGpu := false,
    samplerAnisotropy := false, extensions := [], formats := [],
    present_modes := [] }

/-- The selection loop of `Application::PickPhysicalDevice`
(application.cpp, lines 165-195): skip devices failing the filter, keep
the device whose score strictly exceeds the best so far (initially
`-1`). -/
def pickFold (required_extensions : List String)
    (devices : List PhysicalDeviceInfo) : Int × PhysicalDeviceInfo :=
  devices.foldl
    (fun acc d =>
      if consideredDevice required_extensions d ∧ RateDevice d > acc.1 then
        (RateDevice d, d)
      else acc)
    (-1, defaultDeviceInfo)

/-- `Application::PickPhysicalDevice` (application.cpp, lines 154-199):
empty device list and no-suitable-device errors, otherwise the best
device. -/
def PickPhysicalDevice (required_extensions : List String)
    (devices : List PhysicalDeviceInfo) :
    Except String PhysicalDeviceInfo :=
  if devices.isEmpty then .error "There is no vulkan capable devices"
  else if (pickFold required_extensions devices).1 < 0 then
    .error "There is no suitable device"
  else .ok (pickFold required_extensions devices).2

/-! ## Characterization of queue-family index caching -/

theorem populateIndexLoop_ne (families : List QueueFamily) :
    ∀ (i g p : Int), 0 ≤ i →
      (((populateIndexLoop families i g p).1 ≠ -1) ↔
        (g ≠ -1 ∨ families.any (fun f => f.graphics))) ∧
      (((populateIndexLoop families i g p).2 ≠ -1) ↔
        (p ≠ -1 ∨ families.any (fun f => f.present))) := by
  induction families with
  | nil => intro i g p _; simp [populateIndexLoop]
  | cons f rest ih =>
    intro i g p hi
    have hi' : (i : Int) ≠ -1 := by omega
    simp only [populateIndexLoop]
    by_cases hb : (if f.graphics then i else g) ≠ -1 ∧
        (if f.present then i else p) ≠ -1
    · rw [if_pos hb]
      obtain ⟨hb1, hb2⟩ := hb
      refine ⟨⟨fun _ => ?_, fun _ => hb1⟩, ⟨fun _ => ?_, fun _ => hb2⟩⟩
      · by_cases hf : f.graphics
        · right; simp [hf]
        · rw [if_neg hf] at hb1; left; exact hb1
      · by_cases hf : f.present
        · right; simp [hf]
        · rw [if_neg hf] at hb2; left; exact hb2
    · rw [if_neg hb]
      obtain ⟨ih1, ih2⟩ := ih (i + 1) (if f.graphics then i else g)
        (if f.present then i else p) (by omega)
      constructor
      · rw [ih1]
        by_cases hf : f.graphics
        · simp [hf, hi']
        · simp [hf]
      · rw [ih2]
        by_cases hf : f.present
        · simp [hf, hi']
        · simp [hf]

theorem HasAllRequired_iff (d : PhysicalDeviceInfo) :
    HasAllRequired d ↔
      (∃ f ∈ d.families_properties, f.graphics) ∧
      (∃ f ∈ d.families_properties, f.present) := by
  obtain ⟨h1, h2⟩ :=
    populateIndexLoop_ne d.families_properties 0 (-1) (-1) (by omega)
  unfold HasAllRequired PopulateIndexCache
  rw [h1, h2]
  simp [List.any_eq_true]

theorem rateDevice_eq_neg_one_iff (d : PhysicalDeviceInfo) :
    RateDevice d = -1 ↔ ¬ HasAllRequired d := by
  unfold RateDevice
  by_cases h : HasAllRequired d
  · rw [if_neg (not_not_intro h)]
    constructor
    · intro hval; exfalso; split_ifs at hval <;> omega
    · intro hcontra; exact absurd h hcontra
  · rw [if_pos h]
    simp [h]

theorem rateDevice_value (d : PhysicalDeviceInfo) (h : HasAllRequired d) :
    RateDevice d = (if d.isDiscreteGpu then 1000 else 0) +
      (if d.samplerAnisotropy then 100 else 0) := by
  unfold RateDevice
  rw [if_neg (not_not_intro h)]

/-! ## Characterization of the selection fold -/

/-- The score-maximizing fold of `PickPhysicalDevice`, restricted to the
devices passing the filter. -/
def bestFold (init : Int × PhysicalDeviceInfo)
    (cs : List PhysicalDeviceInfo) : Int × PhysicalDeviceInfo :=
  cs.foldl
    (fun acc d => if RateDevice d > acc.1 then (RateDevice d, d) else acc)
    init

theorem bestFold_spec :
    ∀ (cs : List PhysicalDeviceInfo) (init : Int × PhysicalDeviceInfo),
      ((∀ e ∈ cs, RateDevice e ≤ init.1) ∧ bestFold init cs = init) ∨
      (∃ i d, cs.get? i = some d ∧ bestFold init cs = (RateDevice d, d) ∧
        init.1 < RateDevice d ∧
        (∀ j e, j < i → cs.get? j = some e → RateDevice e < RateDevice d) ∧
        (∀ e ∈ cs, RateDevice e ≤ RateDevice d)) := by
  intro cs
  induction cs with
  | nil => intro init; left; exact ⟨by simp, rfl⟩
  | cons d rest ih =>
    intro init
    by_cases hd : RateDevice d > init.1
    · have hstep : bestFold init (d :: rest) = bestFold (RateDevice d, d) rest := by
        simp [bestFold, hd]
      rcases ih (RateDevice d, d) with ⟨hall, heq⟩ |
        ⟨i, d', hget, heq, hlt, hbefore, hall⟩
      · right
        refine ⟨0, d, by simp, by rw [hstep, heq], hd, ?_, ?_⟩
        · intro j e hj _; omega
        · intro e he
          rcases List.mem_cons.mp he with rfl | he'
          · exact le_refl _
          · exact hall e he'
      · right
        refine ⟨i + 1, d', by simpa using hget, by rw [hstep, heq],
          by simp at hlt; omega, ?_, ?_⟩
        · intro j e hj hget'
          cases j with
          | zero =>
            simp only [List.get?_cons_zero, Option.some.injEq] at hget'
            subst hget'
            simpa using hlt
          | succ j' => exact hbefore j' e (by omega) (by simpa using hget')
        · intro e he
          rcases List.mem_cons.mp he with rfl | he'
          · exact le_of_lt (by simpa using hlt)
          · exact hall e he'
    · have hstep : bestFold init (d :: rest) = bestFold init rest := by
        simp [bestFold, hd]
      rcases ih init with ⟨hall, heq⟩ | ⟨i, d', hget, heq, hlt, hbefore, hall⟩
      · left
        refine ⟨?_, by rw [hstep, heq]⟩
        intro e he
        rcases List.mem_cons.mp he with rfl | he'
        · omega
        · exact hall e he'
      · right
        refine ⟨i + 1, d', by simpa using hget, by rw [hstep, heq], hlt,
          ?_, ?_⟩
        · intro j e hj hget'
          cases j with
          | zero =>
            simp only [List.get?_cons_zero, Option.some.injEq] at hget'
            subst hget'
            omega
          | succ j' => exact hbefore j' e (by omega) (by simpa using hget')
        · intro e he
          rcases List.mem_cons.mp he with rfl | he'
          · omega
          · exact hall e he'

theorem pickFold_eq_bestFold (req : List String) :
    ∀ (devices : List PhysicalDeviceInfo),
      pickFold req devices =
        bestFold (-1, defaultDeviceInfo)
          (devices.filter (consideredDevice req)) := by
  have main : ∀ (devices : List PhysicalDeviceInfo)
      (init : Int × PhysicalDeviceInfo),
      devices.foldl
        (fun acc d =>
          if consideredDevice req d ∧ RateDevice d > acc.1 then
            (RateDevice d, d) else acc) init =
      bestFold init (devices.filter (consideredDevice req)) := by
    intro devices
    induction devices with
    | nil => intro init; rfl
    | cons d rest ih =>
      intro init
      by_cases hc : consideredDevice req d
      · rw [List.foldl_cons, List.filter_cons_of_pos hc]
        have huf : bestFold init (d :: rest.filter (consideredDevice req)) =
            bestFold (if RateDevice d > init.1 then (RateDevice d, d)
              else init) (rest.filter (consideredDevice req)) := rfl
        rw [huf, ← ih]
        congr 1
        by_cases hr : RateDevice d > init.1
        · simp [hc, hr]
        · simp [hc, hr]
      · rw [List.foldl_cons, List.filter_cons_of_neg (by simpa using hc)]
        rw [← ih]
        congr 1
        simp [hc]
  intro devices
  exact main devices (-1, defaultDeviceInfo)

/-- **C3.** `RateDevice` returns `-1` exactly when the device lacks a
graphics-capable or a presentation-capable queue family, and otherwise
1000 for a discrete GPU plus 100 for sampler anisotropy (one of 0, 100,
1000, 1100); `PickPhysicalDevice` filters on required extensions and a
non-empty surface format / present mode list, keeps the earliest
considered device whose score strictly exceeds all earlier scores (the
first device with the maximal score), and throws
`"There is no suitable device"` exactly when no considered device scores
at least 0. -/
theorem pickPhysicalDevice_spec (req : List String)
    (devices : List PhysicalDeviceInfo) (hne : devices ≠ []) :
    (∀ d, RateDevice d = -1 ↔
      ¬ ((∃ f ∈ d.families_properties, f.graphics) ∧
         (∃ f ∈ d.families_properties, f.present))) ∧
    (∀ d, RateDevice d ≠ -1 →
      RateDevice d = (if d.isDiscreteGpu then 1000 else 0) +
          (if d.samplerAnisotropy then 100 else 0) ∧
        (RateDevice d = 0 ∨ RateDevice d = 100 ∨ RateDevice d = 1000 ∨
          RateDevice d = 1100)) ∧
    (PickPhysicalDevice req devices = .error "There is no suitable device" ↔
      ∀ d ∈ devices.filter (consideredDevice req), RateDevice d < 0) ∧
    (∀ d, PickPhysicalDevice req devices = .ok d ↔
      ∃ i, (devices.filter (consideredDevice req)).get? i = some d ∧
        0 ≤ RateDevice d ∧
        (∀ j e, j < i →
          (devices.filter (consideredDevice req)).get? j = some e →
          RateDevice e < RateDevice d) ∧
        (∀ e ∈ devices.filter (consideredDevice req),
          RateDevice e ≤ RateDevice d)) := by
  have hE : devices.isEmpty = false := by
    cases devices with
    | nil => exact absurd rfl hne
    | cons a l => rfl
  refine ⟨?_, ?_, ?_⟩
  · intro d
    rw [rateDevice_eq_neg_one_iff, HasAllRequired_iff]
  · intro d hne1
    have h : HasAllRequired d := by
      by_contra hc
      exact hne1 ((rateDevice_eq_neg_one_iff d).mpr hc)
    refine ⟨rateDevice_value d h, ?_⟩
    rw [rateDevice_value d h]
    split_ifs <;> omega
  have hpf := pickFold_eq_bestFold req devices
  rcases bestFold_spec (devices.filter (consideredDevice req))
      (-1, defaultDeviceInfo) with
    ⟨hall, heq⟩ | ⟨i, dw, hget, heq, hlt, hbefore, hallw⟩
  · have hpick : PickPhysicalDevice req devices =
        .error "There is no suitable device" := by
      unfold PickPhysicalDevice
      rw [hpf, heq]
      simp [hE]
    refine ⟨?_, ?_⟩
    · rw [hpick]
      simp only [true_iff]
      intro d hd
      have := hall d hd
      simp only at this
      omega
    · intro d
      rw [hpick]
      refine iff_of_false (fun h => Except.noConfusion h) ?_
      rintro ⟨i, hgi, h0, _, _⟩
      have hmem : d ∈ devices.filter (consideredDevice req) :=
        List.get?_mem hgi
      have := hall d hmem
      simp only at this
      omega
  · have hlt' : (-1 : Int) < RateDevice dw := by simpa using hlt
    have hpick : PickPhysicalDevice req devices = .ok dw := by
      unfold PickPhysicalDevice
      rw [hpf, heq]
      simp only [hE, Bool.false_eq_true, if_false]
      rw [if_neg (by omega : ¬ (RateDevice dw < 0))]
    refine ⟨?_, ?_⟩
    · rw [hpick]
      refine iff_of_false (fun h => Except.noConfusion h) ?_
      intro hforall
      have := hforall dw (List.get?_mem hget)
      omega
    · intro d
      rw [hpick]
      constructor
      · intro hok
        have hdw : dw = d := by
          injection hok with h
        subst hdw
        exact ⟨i, hget, by omega, hbefore, hallw⟩
      · rintro ⟨i', hget', h0', hbefore', hall'⟩
        have hdd : dw = d := by
          rcases lt_trichotomy i i' with h | h | h
          · have h1 := hbefore' i dw h hget
            have h2 := hallw d (List.get?_mem hget')
            omega
          · subst h
            rw [hget] at hget'
            injection hget'
          · have h1 := hbefore i' d h hget'
            have h2 := hall' dw (List.get?_mem hget)
            omega
        rw [hdd]

/-- A device with a graphics+present queue family, the swapchain
extension, one surface format and one present mode; discrete with
anisotropy, so it scores 1100. -/
def sampleDevice : PhysicalDeviceInfo :=
  { families_properties := [{ graphics := true, present := true }],
    isDiscreteGpu := true, samplerAnisotropy := true,
    extensions := ["VK_KHR_swapchain"], formats := [{ format := 50, colorSpace := 0 }],
    present_modes := [VkPresentModeKHR.fifo] }

/-- Witness for `pickPhysicalDevice_spec`: with a single suitable device,
selection succeeds and returns it. -/
theorem pickPhysicalDevice_spec_witness :
    PickPhysicalDevice ["VK_KHR_swapchain"] [sampleDevice] = .ok sampleDevice :=
  ((pickPhysicalDevice_spec ["VK_KHR_swapchain"] [sampleDevice]
      (by simp)).2.2.2 sampleDevice).mpr
    ⟨0, by decide, by decide, by intro j e hj _; omega, by decide⟩

/-! ## Present mode choice (`Application::ChoosePresentMode`) -/

/-- The `priority` array of `Application::ChoosePresentMode`
(application.cpp, lines 1576-1578): a later position scores higher. -/
def presentModePriority : List VkPresentModeKHR :=
  [.immediate, .fifoRelaxed, .fifo, .mailbox]

/-- `std::find` followed by `std::distance`: position of the first
occurrence of `m`, if any. -/
def findIndex (m : VkPresentModeKHR) : List VkPresentModeKHR → Option Nat
  | [] => none
  | x :: rest => if x = m then some 0 else (findIndex m rest).map (· + 1)

/-- Loop of `Application::ChoosePresentMode` (application.cpp, lines
1580-1592): walk the surface's list, score each mode by its position in
the priority array, keep the index of the first mode with a strictly
greater score. -/
def choosePresentModeLoop :
    List VkPresentModeKHR → Nat → Nat → Int → Nat
  | [], _, best_index, _ => best_index
  | m :: rest, i, best_index, best_score =>
      match findIndex m presentModePriority with
      | some pos =>
          if (pos : Int) > best_score then
            choosePresentModeLoop rest (i + 1) i (pos : Int)
          else choosePresentModeLoop rest (i + 1) best_index best_score
      | none => choosePresentModeLoop rest (i + 1) best_index best_score

/-- `Application::ChoosePresentMode`: the element of the surface's
present-mode list at the best index (starting at 0, best score `-1`). -/
def ChoosePresentMode (modes : List VkPresentModeKHR) :
    Option VkPresentModeKHR :=
  modes.get? (choosePresentModeLoop modes 0 0 (-1))

/-- The score the loop assigns to a mode: its position in the priority
array, `-1` when absent (an absent mode never updates the best). -/
def modeScore (m : VkPresentModeKHR) : Int :=
  match findIndex m presentModePriority with
  | some pos => (pos : Int)
  | none => -1

theorem modeScore_nonneg_of_find {m : VkPresentModeKHR} {pos : Nat}
    (h : findIndex m presentModePriority = some pos) :
    modeScore m = (pos : Int) := by
  simp [modeScore, h]

theorem modeScore_of_find_none {m : VkPresentModeKHR}
    (h : findIndex m presentModePriority = none) : modeScore m = -1 := by
  simp [modeScore, h]

theorem choosePresentModeLoop_spec :
    ∀ (rest : List VkPresentModeKHR) (i best_index : Nat) (best_score : Int),
      -1 ≤ best_score →
      ((∀ e ∈ rest, modeScore e ≤ best_score) ∧
        choosePresentModeLoop rest i best_index best_score = best_index) ∨
      (∃ j m, rest.get? j = some m ∧
        choosePresentModeLoop rest i best_index best_score = i + j ∧
        best_score < modeScore m ∧
        (∀ j' e, j' < j → rest.get? j' = some e →
          modeScore e < modeScore m) ∧
        (∀ e ∈ rest, modeScore e ≤ modeScore m)) := by
  intro rest
  induction rest with
  | nil => intro i bi bs _; left; exact ⟨by simp, rfl⟩
  | cons m rest ih =>
    intro i bi bs hbs
    cases hf : findIndex m presentModePriority with
    | some pos =>
      have hloop : choosePresentModeLoop (m :: rest) i bi bs =
          if (pos : Int) > bs then
            choosePresentModeLoop rest (i + 1) i (pos : Int)
          else choosePresentModeLoop rest (i + 1) bi bs := by
        rw [choosePresentModeLoop, hf]
      have hsc : modeScore m = (pos : Int) := modeScore_nonneg_of_find hf
      by_cases hgt : (pos : Int) > bs
      · rw [hloop, if_pos hgt]
        rcases ih (i + 1) i (pos : Int) (by omega) with ⟨hall, heq⟩ |
          ⟨j, m', hget, heq, hlt, hbefore, hall⟩
        · right
          refine ⟨0, m, by simp, by rw [heq]; omega, by omega, ?_, ?_⟩
          · intro j' e hj' _; omega
          · intro e he
            rcases List.mem_cons.mp he with rfl | he'
            · omega
            · have := hall e he'; omega
        · right
          refine ⟨j + 1, m', by simpa using hget, by rw [heq]; omega,
            by omega, ?_, ?_⟩
          · intro j' e hj' hget'
            cases j' with
            | zero =>
              simp only [List.get?_cons_zero, Option.some.injEq] at hget'
              subst hget'
              omega
            | succ j'' => exact hbefore j'' e (by omega) (by simpa using hget')
          · intro e he
            rcases List.mem_cons.mp he with rfl | he'
            · omega
            · exact hall e he'
      · rw [hloop, if_neg hgt]
        rcases ih (i + 1) bi bs hbs with ⟨hall, heq⟩ |
          ⟨j, m', hget, heq, hlt, hbefore, hall⟩
        · left
          refine ⟨?_, heq⟩
          intro e he
          rcases List.mem_cons.mp he with rfl | he'
          · omega
          · exact hall e he'
        · right
          refine ⟨j + 1, m', by simpa using hget, by rw [heq]; omega,
            hlt, ?_, ?_⟩
          · intro j' e hj' hget'
            cases j' with
            | zero =>
              simp only [List.get?_cons_zero, Option.some.injEq] at hget'
              subst hget'
              omega
            | succ j'' => exact hbefore j'' e (by omega) (by simpa using hget')
          · intro e he
            rcases List.mem_cons.mp he with rfl | he'
            · omega
            · exact hall e he'
    | none =>
      have hloop : choosePresentModeLoop (m :: rest) i bi bs =
          choosePresentModeLoop rest (i + 1) bi bs := by
        rw [choosePresentModeLoop, hf]
      rw [hloop]
      have hsc : modeScore m = -1 := modeScore_of_find_none hf
      rcases ih (i + 1) bi bs hbs with ⟨hall, heq⟩ |
        ⟨j, m', hget, heq, hlt, hbefore, hall⟩
      · left
        refine ⟨?_, heq⟩
        intro e he
        rcases List.mem_cons.mp he with rfl | he'
        · omega
        · exact hall e he'
      · right
        refine ⟨j + 1, m', by simpa using hget, by rw [heq]; omega,
          hlt, ?_, ?_⟩
        · intro j' e hj' hget'
          cases j' with
          | zero =>
            simp only [List.get?_cons_zero, Option.some.injEq] at hget'
            subst hget'
            omega
          | succ j'' => exact hbefore j'' e (by omega) (by simpa using hget')
        · intro e he
          rcases List.mem_cons.mp he with rfl | he'
          · omega
          · exact hall e he'

/-- **C10.** With a non-empty present-mode list, `ChoosePresentMode` ranks
modes by their position in `{IMMEDIATE, FIFO_RELAXED, FIFO, MAILBOX}`
(later position preferred, any other mode scoring below all four), returns
the first occurrence of the highest-ranked available mode, and returns the
list's first element when none of the four candidates is available. -/
theorem choosePresentMode_spec (modes : List VkPresentModeKHR)
    (_hne : modes ≠ []) :
    (modeScore .immediate = 0 ∧ modeScore .fifoRelaxed = 1 ∧
      modeScore .fifo = 2 ∧ modeScore .mailbox = 3 ∧
      modeScore .sharedDemandRefresh = -1 ∧
      modeScore .sharedContinuousRefresh = -1) ∧
    ((∀ e ∈ modes, modeScore e = -1) →
      ChoosePresentMode modes = modes.get? 0) ∧
    ((∃ e ∈ modes, 0 ≤ modeScore e) →
      ∃ k m, modes.get? k = some m ∧ ChoosePresentMode modes = some m ∧
        (∀ j e, j < k → modes.get? j = some e →
          modeScore e < modeScore m) ∧
        (∀ e ∈ modes, modeScore e ≤ modeScore m)) := by
  refine ⟨by refine ⟨?_, ?_, ?_, ?_, ?_, ?_⟩ <;> decide, ?_, ?_⟩
  · intro hall
    rcases choosePresentModeLoop_spec modes 0 0 (-1) (by omega) with
      ⟨_, heq⟩ | ⟨j, m, hget, _, hlt, _, _⟩
    · rw [ChoosePresentMode, heq]
    · have := hall m (List.get?_mem hget)
      omega
  · rintro ⟨e0, he0, hs0⟩
    rcases choosePresentModeLoop_spec modes 0 0 (-1) (by omega) with
      ⟨hall, _⟩ | ⟨j, m, hget, heq, hlt, hbefore, hall⟩
    · have := hall e0 he0
      omega
    · refine ⟨j, m, hget, ?_, hbefore, hall⟩
      rw [ChoosePresentMode, heq]
      simpa using hget

/-- Witness for `choosePresentMode_spec`: a list containing only a mode
outside the priority array falls back to its first element. -/
theorem choosePresentMode_spec_witness :
    ChoosePresentMode [VkPresentModeKHR.sharedDemandRefresh] =
      [VkPresentModeKHR.sharedDemandRefresh].get? 0 :=
  (choosePresentMode_spec [VkPresentModeKHR.sharedDemandRefresh]
      (by simp)).2.1 (by decide)

/-! ## Per-frame synchronization (`CreateSyncObjects`, `DrawFrame`) -/

/-- `Application::kMaxFramesInFlight` (application.h, line 26). -/
def kMaxFramesInFlight : Nat := 2

/-- A semaphore handle, identified by its array and frame slot. -/
inductive Semaphore where
  | imageAvailable (slot : Nat)
  | renderFinished (slot : Nat)
deriving DecidableEq, Repr

/-- A fence handle, identified by its frame slot in `in_flight_fences_`. -/
inductive Fence where
  | inFlight (slot : Nat)
deriving DecidableEq, Repr

/-- The synchronization objects owned by `Application`. Each fence carries
the `signaled` flag it was created with. -/
structure SyncState where
  image_available_semaphores_ : List Semaphore
  render_finished_semaphores_ : List Semaphore
  in_flight_fences_ : List (Fence × Bool)
  images_in_flight_ : List (Option Fence)
deriving DecidableEq, Repr

/-- `Application::CreateSyncObjects` (application.cpp, lines 1695-1727):
`kMaxFramesInFlight` semaphores per array, `kMaxFramesInFlight` fences
created signaled (`VK_FENCE_CREATE_SIGNALED_BIT`), and
`images_in_flight_` resized to the number of swapchain image views, all
null. -/
def CreateSyncObjects (numSwapchainImageViews : Nat) : SyncState :=
  { image_available_semaphores_ :=
      (List.range kMaxFramesInFlight).map Semaphore.imageAvailable,
    render_finished_semaphores_ :=
      (List.range kMaxFramesInFlight).map Semaphore.renderFinished,
    in_flight_fences_ :=
      (List.range kMaxFramesInFlight).map (fun s => (Fence.inFlight s, true)),
    images_in_flight_ := List.replicate numSwapchainImageViews none }

/-- Host-visible synchronization actions performed by `DrawFrame`, in
program order. -/
inductive SyncEvent where
  | waitFence (f : Fence)
  | acquireImage (signal : Semaphore)
  | resetFence (f : Fence)
  | queueSubmit (wait : Semaphore) (signal : Semaphore) (fence : Fence)
  | present (wait : Semaphore)
  | deviceWaitIdle
deriving DecidableEq, Repr

/-- The `VkResult` values `DrawFrame` distinguishes. -/
inductive VkResult where
  | success
  | suboptimalKHR
  | errorOutOfDateKHR
  | otherError
deriving DecidableEq, Repr

/-- The mutable state `DrawFrame` reads and writes. -/
structure FrameState where
  current_frame_ : Nat
  images_in_flight_ : List (Option Fence)
  frame_buffer_resized_ : Bool
deriving DecidableEq, Repr

/-- `Application::DrawFrame` (application.cpp, lines 1385-1475), as the
sequence of host synchronization events it performs plus the state it
leaves behind. Control flow mirrors the source: wait on the current
frame's fence; acquire (out-of-date returns early after recreating the
swapchain, other failures throw); wait on the fence of a previous frame
still using the acquired image, if any; mark the image as used by this
frame; reset the fence and submit, waiting on the slot's image-available
semaphore and signalling its render-finished semaphore; present waiting
on the render-finished semaphore (out-of-date/suboptimal/resize
recreates, other failures throw); wait for the device to become idle; and
advance `current_frame_` modulo `kMaxFramesInFlight`. -/
def DrawFrame (st : FrameState) (acquire_result : VkResult)
    (image_index : Nat) (present_result : VkResult) :
    Except String (FrameState × List SyncEvent) :=
  let cf := st.current_frame_
  let evs_acquire := [SyncEvent.waitFence (Fence.inFlight cf),
    SyncEvent.acquireImage (Semaphore.imageAvailable cf)]
  if acquire_result = VkResult.errorOutOfDateKHR then
    .ok (st, evs_acquire)
  else if acquire_result ≠ VkResult.success ∧
      acquire_result ≠ VkResult.suboptimalKHR then
    .error "vkAcquireNextImageKHR"
  else
    let wait_prev :=
      match st.images_in_flight_.getD image_index none with
      | some fence => [SyncEvent.waitFence fence]
      | none => []
    let images' :=
      st.images_in_flight_.set image_index (some (Fence.inFlight cf))
    let evs_submit := evs_acquire ++ wait_prev ++
      [SyncEvent.resetFence (Fence.inFlight cf),
       SyncEvent.queueSubmit (Semaphore.imageAvailable cf)
         (Semaphore.renderFinished cf) (Fence.inFlight cf),
       SyncEvent.present (Semaphore.renderFinished cf)]
    if present_result = VkResult.errorOutOfDateKHR ∨
        present_result = VkResult.suboptimalKHR ∨
        st.frame_buffer_resized_ then
      .ok ({ current_frame_ := (cf + 1) % kMaxFramesInFlight,
             images_in_flight_ := images', frame_buffer_resized_ := false },
           evs_submit ++ [SyncEvent.deviceWaitIdle])
    else if present_result ≠ VkResult.success then
      .error "vkQueuePresentKHR"
    else
      .ok ({ current_frame_ := (cf + 1) % kMaxFramesInFlight,
             images_in_flight_ := images',
             frame_buffer_resized_ := st.frame_buffer_resized_ },
           evs_submit ++ [SyncEvent.deviceWaitIdle])

/-- Host-side fence waits. -/
def isWaitFence : SyncEvent → Bool
  | .waitFence _ => true
  | _ => false

/-- On the non-throwing path (image acquired successfully or suboptimal,
presentation not failing with an unexpected error), `DrawFrame` returns
the full event sequence and the advanced state. -/
theorem DrawFrame_ok (st : FrameState) (acq : VkResult) (ii : Nat)
    (pres : VkResult)
    (hacq : acq = VkResult.success ∨ acq = VkResult.suboptimalKHR)
    (hpres : pres ≠ VkResult.otherError) :
    DrawFrame st acq ii pres = .ok
      ({ current_frame_ := (st.current_frame_ + 1) % kMaxFramesInFlight,
         images_in_flight_ :=
           st.images_in_flight_.set ii (some (Fence.inFlight st.current_frame_)),
         frame_buffer_resized_ := false },
       [SyncEvent.waitFence (Fence.inFlight st.current_frame_),
        SyncEvent.acquireImage (Semaphore.imageAvailable st.current_frame_)] ++
       (match st.images_in_flight_.getD ii none with
        | some fence => [SyncEvent.waitFence fence]
        | none => []) ++
       [SyncEvent.resetFence (Fence.inFlight st.current_frame_),
        SyncEvent.queueSubmit (Semaphore.imageAvailable st.current_frame_)
          (Semaphore.renderFinished st.current_frame_)
          (Fence.inFlight st.current_frame_),
        SyncEvent.present (Semaphore.renderFinished st.current_frame_)] ++
       [SyncEvent.deviceWaitIdle]) := by
  rcases hacq with rfl | rfl <;>
    cases pres <;>
    first
      | exact absurd rfl hpres
      | (by_cases hfb : st.frame_buffer_resized_ <;>
          simp [DrawFrame, hfb])

/-- **C1 counterexample.** `DrawFrame` DOES block the host until the
device is idle: on a fully successful frame (concrete state: frame slot 0,
three swapchain images none in flight), the recorded event sequence
contains `vkDeviceWaitIdle` (application.cpp, line 1472), refuting the
claim that `current_frame_` is advanced without blocking the host until
the device is idle, so frames are never actually in flight
concurrently. -/
theorem drawFrame_blocks_on_device_idle :
    DrawFrame { current_frame_ := 0, images_in_flight_ := [none, none, none],
                frame_buffer_resized_ := false }
        VkResult.success 1 VkResult.success =
      .ok ({ current_frame_ := 1,
             images_in_flight_ := [none, some (Fence.inFlight 0), none],
             frame_buffer_resized_ := false },
           [SyncEvent.waitFence (Fence.inFlight 0),
            SyncEvent.acquireImage (Semaphore.imageAvailable 0),
            SyncEvent.resetFence (Fence.inFlight 0),
            SyncEvent.queueSubmit (Semaphore.imageAvailable 0)
              (Semaphore.renderFinished 0) (Fence.inFlight 0),
            SyncEvent.present (Semaphore.renderFinished 0),
            SyncEvent.deviceWaitIdle]) ∧
    SyncEvent.deviceWaitIdle ∈
      [SyncEvent.waitFence (Fence.inFlight 0),
       SyncEvent.acquireImage (Semaphore.imageAvailable 0),
       SyncEvent.resetFence (Fence.inFlight 0),
       SyncEvent.queueSubmit (Semaphore.imageAvailable 0)
         (Semaphore.renderFinished 0) (Fence.inFlight 0),
       SyncEvent.present (Semaphore.renderFinished 0),
       SyncEvent.deviceWaitIdle] := by
  constructor
  · rfl
  · decide

/-- **C1 (amended).** `CreateSyncObjects` creates
`kMaxFramesInFlight = 2` image-available semaphores, 2 render-finished
semaphores and 2 fences (created signaled), and `images_in_flight_` with
one null slot per swapchain image; on every non-throwing `DrawFrame` the
host's fence waits are exactly the current frame slot's fence followed by
the fence of a previous frame still using the acquired image (when any);
the sole queue submission waits on the slot's image-available semaphore,
signals its render-finished semaphore and is fenced by the slot's fence;
presentation waits only on the render-finished semaphore; the acquired
image is marked as used by the current frame's fence; and
`current_frame_` advances to `(current_frame_ + 1) % 2` — but only after
a `vkDeviceWaitIdle` that blocks the host until the device is idle, so
two frames are never in flight concurrently. -/
theorem frame_sync_spec (numImages : Nat) (st : FrameState) (ii : Nat)
    (acq pres : VkResult)
    (hacq : acq = VkResult.success ∨ acq = VkResult.suboptimalKHR)
    (hpres : pres ≠ VkResult.otherError) :
    kMaxFramesInFlight = 2 ∧
    (CreateSyncObjects numImages).image_available_semaphores_.length =
      kMaxFramesInFlight ∧
    (CreateSyncObjects numImages).render_finished_semaphores_.length =
      kMaxFramesInFlight ∧
    (CreateSyncObjects numImages).in_flight_fences_.length =
      kMaxFramesInFlight ∧
    (∀ fb ∈ (CreateSyncObjects numImages).in_flight_fences_,
      fb.2 = true) ∧
    (CreateSyncObjects numImages).images_in_flight_ =
      List.replicate numImages none ∧
    (∃ st' evs, DrawFrame st acq ii pres = .ok (st', evs) ∧
      (st.images_in_flight_.getD ii none = none →
        evs.filter isWaitFence =
          [SyncEvent.waitFence (Fence.inFlight st.current_frame_)]) ∧
      (∀ f, st.images_in_flight_.getD ii none = some f →
        evs.filter isWaitFence =
          [SyncEvent.waitFence (Fence.inFlight st.current_frame_),
           SyncEvent.waitFence f]) ∧
      SyncEvent.queueSubmit (Semaphore.imageAvailable st.current_frame_)
        (Semaphore.renderFinished st.current_frame_)
        (Fence.inFlight st.current_frame_) ∈ evs ∧
      (∀ w s f, SyncEvent.queueSubmit w s f ∈ evs →
        w = Semaphore.imageAvailable st.current_frame_ ∧
        s = Semaphore.renderFinished st.current_frame_ ∧
        f = Fence.inFlight st.current_frame_) ∧
      SyncEvent.present (Semaphore.renderFinished st.current_frame_) ∈ evs ∧
      (∀ w, SyncEvent.present w ∈ evs →
        w = Semaphore.renderFinished st.current_frame_) ∧
      SyncEvent.deviceWaitIdle ∈ evs ∧
      st'.images_in_flight_ =
        st.images_in_flight_.set ii
          (some (Fence.inFlight st.current_frame_)) ∧
      st'.current_frame_ =
        (st.current_frame_ + 1) % kMaxFramesInFlight) := by
  refine ⟨rfl, by simp [CreateSyncObjects], by simp [CreateSyncObjects],
    by simp [CreateSyncObjects], ?_, by simp [CreateSyncObjects], ?_⟩
  · intro fb hfb
    simp only [CreateSyncObjects, List.mem_map] at hfb
    obtain ⟨s, _, rfl⟩ := hfb
    rfl
  · refine ⟨_, _, DrawFrame_ok st acq ii pres hacq hpres, ?_, ?_, ?_, ?_,
      ?_, ?_, ?_, ?_, ?_⟩
    · intro hprev
      rw [hprev]
      simp [isWaitFence]
    · intro f hprev
      rw [hprev]
      simp [isWaitFence]
    · cases hprev : st.images_in_flight_.getD ii none <;> simp [hprev]
    · intro w s f hmem
      cases hprev : st.images_in_flight_.getD ii none <;>
        (rw [hprev] at hmem; simp at hmem; exact hmem)
    · cases hprev : st.images_in_flight_.getD ii none <;> simp [hprev]
    · intro w hmem
      cases hprev : st.images_in_flight_.getD ii none <;>
        (rw [hprev] at hmem; simp at hmem; exact hmem)
    · cases hprev : st.images_in_flight_.getD ii none <;> simp [hprev]
    · rfl
    · rfl

/-- Witness for `frame_sync_spec`: one swapchain image, initial state, a
fully successful frame. -/
theorem frame_sync_spec_witness :
    kMaxFramesInFlight = 2 ∧
    (CreateSyncObjects 1).images_in_flight_ = List.replicate 1 none :=
  ⟨(frame_sync_spec 1
      { current_frame_ := 0, images_in_flight_ := [none],
        frame_buffer_resized_ := false }
      0 VkResult.success VkResult.success (Or.inl rfl) (by decide)).1,
   (frame_sync_spec 1
      { current_frame_ := 0, images_in_flight_ := [none],
        frame_buffer_resized_ := false }
      0 VkResult.success VkResult.success (Or.inl rfl) (by decide)).2.2.2.2.2.1⟩

/-! ## Model loading (`Application::LoadModel`)

`LoadModel` (application.cpp, lines 881-922) walks every face index of
every shape, deduplicating on the full `tinyobj::index_t` triple via the
`index_remap` hash map. The `Vertex` built for a fresh triple reads
floating-point attribute data; the claims under verification are
insensitive to that data, so vertex construction is abstracted as a
function `mkVertex` of the triple. The nested per-shape loops visit the
face indices exactly in flattened order (`reserve` has no observable
effect), so the loop body is folded over the flattened index list. -/

/-- `tinyobj::index_t`: the triple identifying a face vertex. Equality and
hashing in the source use all three components. -/
structure ObjIndex where
  vertex_index : Int
  texcoord_index : Int
  normal_index : Int
deriving DecidableEq, Repr

/-- Association-list model of the `index_remap` `std::unordered_map`
(newest binding first; bindings are never overwritten). -/
def lookupIdx (m : List (ObjIndex × Nat)) (k : ObjIndex) : Option Nat :=
  match m with
  | [] => none
  | (k', v) :: rest => if k' = k then some v else lookupIdx rest k

/-- Running state of `LoadModel`'s loop: `vertices_`, `indices_` and the
`index_remap` map. -/
structure LoadModelState (V : Type) where
  vertices_ : List V
  indices_ : List Nat
  index_remap : List (ObjIndex × Nat)

/-- One iteration of the inner loop of `LoadModel`: a known triple reuses
its mapped index; a fresh triple appends a new vertex, maps the triple to
its position, and emits that index. -/
def loadModelStep (mkVertex : ObjIndex → V) (st : LoadModelState V)
    (model_index : ObjIndex) : LoadModelState V :=
  match lookupIdx st.index_remap model_index with
  | some index => { st with indices_ := st.indices_ ++ [index] }
  | none =>
      let index := st.vertices_.length
      { vertices_ := st.vertices_ ++ [mkVertex model_index],
        indices_ := st.indices_ ++ [index],
        index_remap := (model_index, index) :: st.index_remap }

/-- `Application::LoadModel`: fold the loop body over all face indices of
all shapes, starting from the empty state; returns
`(vertices_, indices_)`. -/
def LoadModel (mkVertex : ObjIndex → V) (shapes : List (List ObjIndex)) :
    List V × List Nat :=
  let final := shapes.flatten.foldl (loadModelStep mkVertex)
    { vertices_ := [], indices_ := [], index_remap := [] }
  (final.vertices_, final.indices_)

/-! ## Characterization of the deduplication loop -/

theorem lookupIdx_eq_none_iff (m : List (ObjIndex × Nat)) (k : ObjIndex) :
    lookupIdx m k = none ↔ ∀ kv ∈ m, kv.1 ≠ k := by
  induction m with
  | nil => simp [lookupIdx]
  | cons kv rest ih =>
    obtain ⟨k', v⟩ := kv
    by_cases h : k' = k
    · subst h
      simp [lookupIdx]
    · simp [lookupIdx, h, ih]

theorem lookupIdx_mem {m : List (ObjIndex × Nat)} {k : ObjIndex} {v : Nat}
    (h : lookupIdx m k = some v) : (k, v) ∈ m := by
  induction m with
  | nil => exact Option.noConfusion h
  | cons kv rest ih =>
    obtain ⟨k', v'⟩ := kv
    by_cases hk : k' = k
    · subst hk
      rw [lookupIdx, if_pos rfl] at h
      injection h with h'
      subst h'
      exact List.mem_cons_self _ _
    · rw [lookupIdx, if_neg hk] at h
      exact List.mem_cons_of_mem _ (ih h)

theorem loadModelStep_hit (mkV : ObjIndex → V) (st : LoadModelState V)
    (t : ObjIndex) (i : Nat) (h : lookupIdx st.index_remap t = some i) :
    loadModelStep mkV st t = { st with indices_ := st.indices_ ++ [i] } := by
  unfold loadModelStep
  rw [h]

theorem loadModelStep_miss (mkV : ObjIndex → V) (st : LoadModelState V)
    (t : ObjIndex) (h : lookupIdx st.index_remap t = none) :
    loadModelStep mkV st t =
      { vertices_ := st.vertices_ ++ [mkV t],
        indices_ := st.indices_ ++ [st.vertices_.length],
        index_remap := (t, st.vertices_.length) :: st.index_remap } := by
  unfold loadModelStep
  rw [h]

theorem lookupIdx_loadModelStep (mkV : ObjIndex → V) (st : LoadModelState V)
    (t k : ObjIndex) (v : Nat) (h : lookupIdx st.index_remap k = some v) :
    lookupIdx (loadModelStep mkV st t).index_remap k = some v := by
  cases hl : lookupIdx st.index_remap t with
  | some i => rw [loadModelStep_hit mkV st t i hl]; exact h
  | none =>
    have hk : t ≠ k := by
      rintro rfl
      rw [h] at hl
      exact Option.noConfusion hl
    rw [loadModelStep_miss mkV st t hl, lookupIdx, if_neg hk]
    exact h

theorem lookupIdx_foldl (mkV : ObjIndex → V) (l : List ObjIndex) :
    ∀ (st : LoadModelState V) (k : ObjIndex) (v : Nat),
      lookupIdx st.index_remap k = some v →
      lookupIdx ((l.foldl (loadModelStep mkV) st).index_remap) k = some v := by
  induction l with
  | nil => intro st k v h; exact h
  | cons t l ih =>
    intro st k v h
    exact ih _ k v (lookupIdx_loadModelStep mkV st t k v h)

theorem loadModelStep_indices (mkV : ObjIndex → V) (st : LoadModelState V)
    (t : ObjIndex) :
    ∃ ix, lookupIdx (loadModelStep mkV st t).index_remap t = some ix ∧
      (loadModelStep mkV st t).indices_ = st.indices_ ++ [ix] := by
  cases hl : lookupIdx st.index_remap t with
  | some i =>
    rw [loadModelStep_hit mkV st t i hl]
    exact ⟨i, hl, rfl⟩
  | none =>
    rw [loadModelStep_miss mkV st t hl]
    exact ⟨st.vertices_.length, by rw [lookupIdx, if_pos rfl], rfl⟩

theorem loadModel_foldl_indices (mkV : ObjIndex → V) (l : List ObjIndex) :
    ∀ st : LoadModelState V,
      (l.foldl (loadModelStep mkV) st).indices_ =
        st.indices_ ++ l.map (fun t =>
          (lookupIdx ((l.foldl (loadModelStep mkV) st).index_remap) t).getD 0) := by
  induction l with
  | nil => intro st; simp
  | cons t l ih =>
    intro st
    rw [List.foldl_cons]
    obtain ⟨ix, hix, hind⟩ := loadModelStep_indices mkV st t
    rw [ih (loadModelStep mkV st t), hind]
    have hfix : lookupIdx
        ((List.foldl (loadModelStep mkV) (loadModelStep mkV st t) l).index_remap)
        t = some ix := lookupIdx_foldl mkV l _ t ix hix
    simp only [List.map_cons, hfix, Option.getD_some, List.append_assoc,
      List.cons_append, List.nil_append]

/-- Invariant of the deduplication map: every mapped index is a valid
vertex position, the map has exactly one binding per vertex, and no triple
is bound twice. -/
def RemapInv (st : LoadModelState V) : Prop :=
  (∀ kv ∈ st.index_remap, kv.2 < st.vertices_.length) ∧
  st.vertices_.length = st.index_remap.length ∧
  (st.index_remap.map Prod.fst).Nodup

theorem loadModelStep_inv (mkV : ObjIndex → V) (st : LoadModelState V)
    (t : ObjIndex) (h : RemapInv st) : RemapInv (loadModelStep mkV st t) := by
  obtain ⟨h1, h2, h3⟩ := h
  cases hl : lookupIdx st.index_remap t with
  | some i =>
    rw [loadModelStep_hit mkV st t i hl]
    exact ⟨h1, h2, h3⟩
  | none =>
    rw [loadModelStep_miss mkV st t hl]
    refine ⟨?_, ?_, ?_⟩
    · intro kv hkv
      simp only [List.mem_cons] at hkv
      rcases hkv with rfl | hkv
      · simp
      · have := h1 kv hkv
        simp only [List.length_append, List.length_singleton]
        omega
    · simp [h2]
    · simp only [List.map_cons, List.nodup_cons]
      refine ⟨?_, h3⟩
      intro hmem
      rw [lookupIdx_eq_none_iff] at hl
      obtain ⟨kv, hkv, hfst⟩ := List.mem_map.mp hmem
      exact hl kv hkv hfst

theorem loadModel_foldl_inv (mkV : ObjIndex → V) (l : List ObjIndex) :
    ∀ st : LoadModelState V, RemapInv st →
      RemapInv (l.foldl (loadModelStep mkV) st) := by
  induction l with
  | nil => intro st h; exact h
  | cons t l ih => intro st h; exact ih _ (loadModelStep_inv mkV st t h)

theorem loadModelStep_lookup_ne_none (mkV : ObjIndex → V)
    (st : LoadModelState V) (t k : ObjIndex) :
    lookupIdx (loadModelStep mkV st t).index_remap k ≠ none ↔
      (lookupIdx st.index_remap k ≠ none ∨ k = t) := by
  cases hl : lookupIdx st.index_remap t with
  | some i =>
    rw [loadModelStep_hit mkV st t i hl]
    constructor
    · intro h; exact Or.inl h
    · rintro (h | rfl)
      · exact h
      · rw [hl]; exact fun hc => Option.noConfusion hc
  | none =>
    rw [loadModelStep_miss mkV st t hl]
    by_cases hk : t = k
    · subst hk
      rw [lookupIdx, if_pos rfl]
      simp
    · rw [lookupIdx, if_neg hk]
      have hk' : k ≠ t := fun h => hk h.symm
      simp [hk']

theorem loadModel_foldl_lookup_ne_none (mkV : ObjIndex → V)
    (l : List ObjIndex) :
    ∀ (st : LoadModelState V) (k : ObjIndex),
      lookupIdx ((l.foldl (loadModelStep mkV) st).index_remap) k ≠ none ↔
        (lookupIdx st.index_remap k ≠ none ∨ k ∈ l) := by
  induction l with
  | nil => intro st k; simp
  | cons t l ih =>
    intro st k
    rw [List.foldl_cons, ih (loadModelStep mkV st t) k,
      loadModelStep_lookup_ne_none mkV st t k]
    simp only [List.mem_cons]
    tauto

theorem mem_keys_iff_lookupIdx (m : List (ObjIndex × Nat)) (k : ObjIndex) :
    k ∈ m.map Prod.fst ↔ lookupIdx m k ≠ none := by
  rw [Ne, lookupIdx_eq_none_iff]
  simp only [List.mem_map, not_forall]
  constructor
  · rintro ⟨kv, hkv, rfl⟩
    exact ⟨kv, hkv, by simp⟩
  · rintro ⟨kv, hkv, hne⟩
    exact ⟨kv, hkv, by simpa using hne⟩

/-- **C8.** After `LoadModel`, every element of `indices_` is strictly
below `vertices_.size()`; `indices_` has exactly one entry per face index
across all shapes; two face indices with the same
`(vertex_index, texcoord_index, normal_index)` triple map to the same
element of `indices_`; and each distinct triple produces exactly one entry
in `vertices_` (the vertex count equals the number of distinct
triples). -/
theorem loadModel_spec (mkVertex : ObjIndex → V)
    (shapes : List (List ObjIndex)) :
    (∀ i ∈ (LoadModel mkVertex shapes).2,
      i < (LoadModel mkVertex shapes).1.length) ∧
    (LoadModel mkVertex shapes).2.length = shapes.flatten.length ∧
    (∀ p q tp ip tq iq,
      shapes.flatten.get? p = some tp →
      (LoadModel mkVertex shapes).2.get? p = some ip →
      shapes.flatten.get? q = some tq →
      (LoadModel mkVertex shapes).2.get? q = some iq →
      tp = tq → ip = iq) ∧
    (LoadModel mkVertex shapes).1.length = shapes.flatten.dedup.length := by
  have hInd := loadModel_foldl_indices mkVertex shapes.flatten
    { vertices_ := [], indices_ := [], index_remap := [] }
  have hInv := loadModel_foldl_inv mkVertex shapes.flatten
    { vertices_ := [], indices_ := [], index_remap := [] }
    ⟨by simp, by simp, by simp⟩
  have hKeys : ∀ k,
      lookupIdx ((shapes.flatten.foldl (loadModelStep mkVertex)
        { vertices_ := [], indices_ := [], index_remap := [] }).index_remap)
        k ≠ none ↔ k ∈ shapes.flatten := by
    intro k
    rw [loadModel_foldl_lookup_ne_none mkVertex shapes.flatten
      { vertices_ := [], indices_ := [], index_remap := [] } k]
    simp [lookupIdx]
  simp only [List.nil_append] at hInd
  refine ⟨?_, ?_, ?_, ?_⟩
  · intro i hi
    simp only [LoadModel] at hi ⊢
    rw [hInd] at hi
    obtain ⟨t, ht, rfl⟩ := List.mem_map.mp hi
    have hne := (hKeys t).mpr ht
    cases hv : lookupIdx ((shapes.flatten.foldl (loadModelStep mkVertex)
        { vertices_ := [], indices_ := [], index_remap := [] }).index_remap)
        t with
    | none => exact absurd hv hne
    | some v =>
      rw [Option.getD_some]
      exact hInv.1 (t, v) (lookupIdx_mem hv)
  · simp only [LoadModel]
    rw [hInd, List.length_map]
  · intro p q tp ip tq iq hp hip hq hiq heq
    simp only [LoadModel] at hip hiq
    rw [hInd, List.get?_map, hp, Option.map_some'] at hip
    rw [hInd, List.get?_map, hq, Option.map_some'] at hiq
    injection hip with hip
    injection hiq with hiq
    rw [← hip, ← hiq, heq]
  · simp only [LoadModel]
    rw [hInv.2.1, ← List.length_map
      ((shapes.flatten.foldl (loadModelStep mkVertex)
        { vertices_ := [], indices_ := [], index_remap := [] }).index_remap)
      Prod.fst]
    refine List.Perm.length_eq ?_
    rw [List.perm_ext_iff_of_nodup hInv.2.2 shapes.flatten.nodup_dedup]
    intro a
    rw [List.mem_dedup, mem_keys_iff_lookupIdx, hKeys]

/-- Witness for `loadModel_spec` (no hypotheses; a concrete evaluation):
one shape with three face indices, two of them identical, yields three
indices into two deduplicated vertices. -/
theorem loadModel_spec_witness :
    LoadModel (fun t => t)
        [[{ vertex_index := 0, texcoord_index := 0, normal_index := 0 },
          { vertex_index := 1, texcoord_index := 0, normal_index := 0 },
          { vertex_index := 0, texcoord_index := 0, normal_index := 0 }]] =
      ([{ vertex_index := 0, texcoord_index := 0, normal_index := 0 },
        { vertex_index := 1, texcoord_index := 0, normal_index := 0 }],
       [0, 1, 0]) ∧
    (LoadModel (fun t : ObjIndex => t)
        [[{ vertex_index := 0, texcoord_index := 0, normal_index := 0 },
          { vertex_index := 1, texcoord_index := 0, normal_index := 0 },
          { vertex_index := 0, texcoord_index := 0, normal_index := 0 }]]).2.length =
      ([[{ vertex_index := 0, texcoord_index := 0, normal_index := 0 },
         { vertex_index := 1, texcoord_index := 0, normal_index := 0 },
         { vertex_index := 0, texcoord_index := 0, normal_index := 0 }]] :
        List (List ObjIndex)).flatten.length :=
  ⟨by decide,
   (loadModel_spec (fun t => t)
      [[{ vertex_index := 0, texcoord_index := 0, normal_index := 0 },
        { vertex_index := 1, texcoord_index := 0, normal_index := 0 },
        { vertex_index := 0, texcoord_index := 0, normal_index := 0 }]]).2.1⟩

/-! ## Mip-chain generation (`Application::GenerateMipMaps_Blit`) -/

/-- One `vkCmdBlitImage` recorded by `GenerateMipMaps_Blit`: source mip
level and extent, destination mip level and extent (the offsets are
`(0,0,0)`‑based, so the nonzero corner is the extent). -/
structure BlitCmd where
  srcLevel : Nat
  srcWidth : Nat
  srcHeight : Nat
  dstLevel : Nat
  dstWidth : Nat
  dstHeight : Nat
deriving DecidableEq, Repr

/-- The loop of `Application::GenerateMipMaps_Blit` (application.cpp,
lines 1127-1172), restricted to the blit commands it records:
`mip_level` runs from `level` up to `mip_levels - 1`; each iteration blits
level `mip_level - 1` at the current extent onto level `mip_level` at the
halved (clamped at 1) extent, then halves the tracked extent. The C++
extents are positive `i32` values, so their arithmetic is `Nat`
division. -/
def genMipBlitsFrom (mip_width mip_height : Nat) :
    (level : Nat) → (mip_levels : Nat) → List BlitCmd
  | level, mip_levels =>
    if _ : level < mip_levels then
      { srcLevel := level - 1, srcWidth := mip_width,
        srcHeight := mip_height, dstLevel := level,
        dstWidth := max (mip_width / 2) 1,
        dstHeight := max (mip_height / 2) 1 } ::
        genMipBlitsFrom (max (mip_width / 2) 1) (max (mip_height / 2) 1)
          (level + 1) mip_levels
    else []
termination_by level mip_levels => mip_levels - level

/-- The blit commands recorded by `Application::GenerateMipMaps_Blit` for
an image of extent `width × height` with `mip_levels` levels (the
surrounding pipeline barriers are elided; the loop counter starts at 1). -/
def GenerateMipMaps_Blit (width height mip_levels : Nat) : List BlitCmd :=
  genMipBlitsFrom width height 1 mip_levels

/-- Extent of mip level `m`: `m` halvings (clamped at 1) of the base
extent. -/
def mipExtent (w : Nat) : Nat → Nat
  | 0 => w
  | m + 1 => max (mipExtent w m / 2) 1

/-- The mip level count computed by `Application::CreateTextureImages`
(application.cpp, lines 717-718):
`1 + floor(log2(max(width, height)))`. The source computes the floor of
the base-2 logarithm in floating point; on the integer image extents
involved that equals `Nat.log2`. -/
def textureMipLevels (width height : Nat) : Nat :=
  1 + Nat.log2 (max width height)

theorem mipExtent_succ_comm (w m : Nat) :
    mipExtent (max (w / 2) 1) m = mipExtent w (m + 1) := by
  induction m with
  | zero => rfl
  | succ m ih =>
    rw [mipExtent, ih]
    rfl

theorem genMipBlitsFrom_length (mip_levels : Nat) :
    ∀ level w h, (genMipBlitsFrom w h level mip_levels).length =
      mip_levels - level := by
  intro level
  induction' hlv : mip_levels - level with d ih generalizing level
  · intro w h
    rw [genMipBlitsFrom, dif_neg (by omega)]
    simp [hlv]
  · intro w h
    rw [genMipBlitsFrom, dif_pos (by omega)]
    simp only [List.length_cons]
    rw [ih (level + 1) (by omega)]

theorem genMipBlitsFrom_get (mip_levels : Nat) :
    ∀ j level w h, level + j < mip_levels →
      (genMipBlitsFrom w h level mip_levels).get? j =
        some { srcLevel := level + j - 1, srcWidth := mipExtent w j,
               srcHeight := mipExtent h j, dstLevel := level + j,
               dstWidth := max (mipExtent w j / 2) 1,
               dstHeight := max (mipExtent h j / 2) 1 } := by
  intro j
  induction j with
  | zero =>
    intro level w h hlt
    rw [genMipBlitsFrom, dif_pos (by omega)]
    simp [mipExtent]
  | succ j ih =>
    intro level w h hlt
    rw [genMipBlitsFrom, dif_pos (by omega)]
    simp only [List.get?_cons_succ]
    rw [ih (level + 1) (max (w / 2) 1) (max (h / 2) 1) (by omega)]
    rw [mipExtent_succ_comm, mipExtent_succ_comm]
    have h1 : level + 1 + j = level + (j + 1) := by omega
    rw [h1]

theorem mipExtent_log2_eq_one : ∀ m, 1 ≤ m →
    mipExtent m (Nat.log2 m) = 1 := by
  intro m
  induction m using Nat.strong_induction_on with
  | _ m ih =>
    intro hm
    by_cases h2 : m ≥ 2
    · rw [Nat.log2]
      simp only [h2, if_pos]
      have hd : max (m / 2) 1 = m / 2 := by
        have : m / 2 ≥ 1 := by omega
        omega
      rw [← mipExtent_succ_comm, hd]
      exact ih (m / 2) (by omega) (by omega)
    · have : m = 1 := by omega
      subst this
      rw [Nat.log2]
      simp [mipExtent]

theorem mipExtent_max (w h : Nat) : ∀ m,
    mipExtent (max w h) m = max (mipExtent w m) (mipExtent h m) := by
  intro m
  induction m with
  | zero => rfl
  | succ m ih =>
    rw [mipExtent, mipExtent, mipExtent, ih]
    omega

/-- **C2.** For every `width ≥ 1`, `height ≥ 1` and `mip_levels ≥ 1`,
`GenerateMipMaps_Blit` records exactly `mip_levels - 1` blit commands; the
blit producing level `m` (`1 ≤ m ≤ mip_levels - 1`) reads level `m - 1` at
the `(m-1)`-times-halved extent and writes level `m` at that extent halved
once more, clamped at 1; and with the level count
`textureMipLevels width height = 1 + floor(log2(max(width, height)))` set
by `CreateTextureImages`, the larger dimension of the last level is 1. -/
theorem generateMipMaps_spec (width height mip_levels : Nat)
    (hw : 1 ≤ width) (hh : 1 ≤ height) (hn : 1 ≤ mip_levels) :
    (GenerateMipMaps_Blit width height mip_levels).length =
        mip_levels - 1 ∧
    (∀ m, 1 ≤ m → m ≤ mip_levels - 1 →
      (GenerateMipMaps_Blit width height mip_levels).get? (m - 1) =
        some { srcLevel := m - 1, srcWidth := mipExtent width (m - 1),
               srcHeight := mipExtent height (m - 1), dstLevel := m,
               dstWidth := max (mipExtent width (m - 1) / 2) 1,
               dstHeight := max (mipExtent height (m - 1) / 2) 1 }) ∧
    max (mipExtent width (textureMipLevels width height - 1))
        (mipExtent height (textureMipLevels width height - 1)) = 1 := by
  refine ⟨genMipBlitsFrom_length mip_levels 1 width height, ?_, ?_⟩
  · intro m h1 h2
    have hidx : 1 + (m - 1) < mip_levels := by omega
    have := genMipBlitsFrom_get mip_levels (m - 1) 1 width height hidx
    rw [GenerateMipMaps_Blit, this]
    have : 1 + (m - 1) = m := by omega
    rw [this]
  · rw [← mipExtent_max]
    have : textureMipLevels width height - 1 = Nat.log2 (max width height) := by
      rw [textureMipLevels]; omega
    rw [this]
    exact mipExtent_log2_eq_one (max width height) (by omega)

/-- Witness for `generateMipMaps_spec`: a 4×3 image gets
`textureMipLevels 4 3 = 3` levels and exactly 2 blits, the last level
being 1 pixel wide. -/
theorem generateMipMaps_spec_witness :
    (GenerateMipMaps_Blit 4 3 (textureMipLevels 4 3)).length =
        textureMipLevels 4 3 - 1 ∧
    max (mipExtent 4 (textureMipLevels 4 3 - 1))
        (mipExtent 3 (textureMipLevels 4 3 - 1)) = 1 :=
  ⟨(generateMipMaps_spec 4 3 (textureMipLevels 4 3) (by decide) (by decide)
      (by simp [textureMipLevels])).1,
   (generateMipMaps_spec 4 3 (textureMipLevels 4 3) (by decide) (by decide)
      (by simp [textureMipLevels])).2.2⟩

/-! ## Characterization of the memory-type scan -/

theorem findMemLoop_some_iff (filter required : Nat) :
    ∀ (rest : List Nat) (k i : Nat),
      findMemLoop filter required k rest = some i ↔
        ∃ j, i = k + j ∧
          (∃ t, rest.get? j = some t ∧
            filter &&& (1 <<< (k + j)) ≠ 0 ∧ t &&& required = required) ∧
          ∀ j' < j, ¬ ∃ t, rest.get? j' = some t ∧
            filter &&& (1 <<< (k + j')) ≠ 0 ∧ t &&& required = required := by
  intro rest
  induction rest with
  | nil => intro k i; simp [findMemLoop]
  | cons t rest ih =>
    intro k i
    by_cases hc : filter &&& (1 <<< k) ≠ 0 ∧ t &&& required = required
    · rw [findMemLoop, if_pos hc]
      constructor
      · intro h
        obtain rfl : k = i := by injection h
        exact ⟨0, by simp, ⟨t, by simp, by simpa using hc⟩, by omega⟩
      · rintro ⟨j, rfl, hP, hmin⟩
        cases j with
        | zero => simp
        | succ j =>
          exact absurd ⟨t, by simp, by simpa using hc.1, hc.2⟩
            (hmin 0 (Nat.succ_pos j))
    · rw [findMemLoop, if_neg hc]
      rw [ih (k + 1) i]
      constructor
      · rintro ⟨j, rfl, hP, hmin⟩
        refine ⟨j + 1, by omega, ?_, ?_⟩
        · obtain ⟨u, hu, h1, h2⟩ := hP
          refine ⟨u, by simpa using hu, ?_, h2⟩
          rw [show k + (j + 1) = k + 1 + j by omega]; exact h1
        · intro j' hj'
          cases j' with
          | zero =>
            rintro ⟨u, hu, h1, h2⟩
            simp only [List.get?_cons_zero, Option.some.injEq] at hu
            subst hu
            exact hc ⟨by simpa using h1, h2⟩
          | succ j'' =>
            rintro ⟨u, hu, h1, h2⟩
            refine hmin j'' (by omega) ⟨u, by simpa using hu, ?_, h2⟩
            rw [show k + 1 + j'' = k + (j'' + 1) by omega]; exact h1
      · rintro ⟨j, rfl, hP, hmin⟩
        cases j with
        | zero =>
          obtain ⟨u, hu, h1, h2⟩ := hP
          simp only [List.get?_cons_zero, Option.some.injEq] at hu
          subst hu
          exact absurd ⟨by simpa using h1, h2⟩ hc
        | succ j =>
          refine ⟨j, by omega, ?_, ?_⟩
          · obtain ⟨u, hu, h1, h2⟩ := hP
            refine ⟨u, by simpa using hu, ?_, h2⟩
            rw [show k + 1 + j = k + (j + 1) by omega]; exact h1
          · intro j' hj'
            rintro ⟨u, hu, h1, h2⟩
            refine hmin (j' + 1) (by omega) ⟨u, by simpa using hu, ?_, h2⟩
            rw [show k + (j' + 1) = k + 1 + j' by omega]; exact h1

theorem FindMemoryTypeIndex_some_iff (types : List Nat)
    (filter required i : Nat) :
    FindMemoryTypeIndex types filter required = some i ↔
      MemTypeOk types filter required i ∧
        ∀ j < i, ¬ MemTypeOk types filter required j := by
  rw [FindMemoryTypeIndex, findMemLoop_some_iff]
  simp only [Nat.zero_add, MemTypeOk]
  constructor
  · rintro ⟨j, rfl, hP, hmin⟩; exact ⟨hP, hmin⟩
  · rintro ⟨hP, hmin⟩; exact ⟨i, rfl, hP, hmin⟩

/-- **C9.** `FindMemoryTypeIndex` returns the smallest index of a memory
type whose bit is set in `filter` and whose property flags contain all of
`required`, and `none` when no such index exists; `GetMemoryTypeIndex`
returns the same index exactly when it exists and throws
`"failed to find memory type index"` exactly when it does not. -/
theorem memory_type_index_spec (types : List Nat) (filter required : Nat) :
    (∀ i, FindMemoryTypeIndex types filter required = some i ↔
        MemTypeOk types filter required i ∧
          ∀ j < i, ¬ MemTypeOk types filter required j) ∧
    (FindMemoryTypeIndex types filter required = none ↔
        ∀ i, ¬ MemTypeOk types filter required i) ∧
    (∀ i, GetMemoryTypeIndex types filter required = .ok i ↔
        FindMemoryTypeIndex types filter required = some i) ∧
    (GetMemoryTypeIndex types filter required =
        .error "failed to find memory type index" ↔
      FindMemoryTypeIndex types filter required = none) := by
  refine ⟨fun i => FindMemoryTypeIndex_some_iff types filter required i,
    ⟨?_, ?_⟩, ?_, ?_⟩
  · intro hnone i hok
    have hex : ∃ n, MemTypeOk types filter required n := ⟨i, hok⟩
    have h0 := Nat.find_spec hex
    have hmin : ∀ j < Nat.find hex, ¬ MemTypeOk types filter required j :=
      fun j hj => Nat.find_min hex hj
    have : FindMemoryTypeIndex types filter required = some (Nat.find hex) :=
      (FindMemoryTypeIndex_some_iff types filter required _).mpr ⟨h0, hmin⟩
    rw [hnone] at this
    exact Option.noConfusion this
  · intro hall
    cases h : FindMemoryTypeIndex types filter required with
    | none => rfl
    | some i =>
      have := (FindMemoryTypeIndex_some_iff types filter required i).mp h
      exact absurd this.1 (hall i)
  · intro i
    unfold GetMemoryTypeIndex
    cases h : FindMemoryTypeIndex types filter required with
    | none => simp
    | some j => simp
  · unfold GetMemoryTypeIndex
    cases h : FindMemoryTypeIndex types filter required with
    | none => simp
    | some j => simp

/-- Witness for `memory_type_index_spec` at a concrete device: two memory
types with flags `0b01` and `0b11`, filter allowing both, requiring `0b10`. -/
theorem memory_type_index_spec_witness :
    FindMemoryTypeIndex [1, 3] 3 2 = some 1 :=
  ((memory_type_index_spec [1, 3] 3 2).1 1).mpr
    ⟨⟨3, by decide, by decide, by decide⟩, by decide⟩

/-! ## Image layout transition theorems -/

/-- **C6.** `TransitionImageLayout` records an image layout transition
barrier and returns normally exactly when `(old_layout, new_layout)` is
one of the three supported transitions; for every other pair it throws
`"unsupported layout transition"`, recording nothing (the model returns
the single recorded command, so the error case records no barrier). -/
theorem transitionImageLayout_spec (format : VkFormat)
    (old_layout new_layout : VkImageLayout) (mip_levels : Nat) :
    ((∃ c, TransitionImageLayout format old_layout new_layout mip_levels =
        .ok c) ↔ SupportedTransition old_layout new_layout) ∧
    (¬ SupportedTransition old_layout new_layout →
      TransitionImageLayout format old_layout new_layout mip_levels =
        .error "unsupported layout transition") := by
  cases old_layout <;> cases new_layout <;>
    simp [TransitionImageLayout, SupportedTransition]

/-- Witness for `transitionImageLayout_spec`: the pair
`(GENERAL, PRESENT_SRC_KHR)` is unsupported and throws. -/
theorem transitionImageLayout_spec_witness :
    TransitionImageLayout VkFormat.r8g8b8a8Srgb VkImageLayout.general
      VkImageLayout.presentSrcKHR 1 = .error "unsupported layout transition" :=
  (transitionImageLayout_spec VkFormat.r8g8b8a8Srgb VkImageLayout.general
    VkImageLayout.presentSrcKHR 1).2 (by decide)

/-! ## Initialization order theorems -/

/-- **C5.** The nine lifecycle stages — instance, physical device, logical
device, swapchain, render pass, pipeline, framebuffers, command buffers,
synchronization primitives — occur as a subsequence of
`Application::InitializeVulkan`'s call order. -/
theorem init_lifecycle_subsequence :
    List.Sublist
      [ InitStep.createInstance, .pickPhysicalDevice, .createDevice,
        .createSwapChain, .createRenderPass, .createGraphicsPipeline,
        .createFrameBuffers, .createCommandBuffers, .createSyncObjects ]
      initializeVulkan := by
  decide

/-- **C4 counterexample.** The buffer-creation calls
(`CreateVertexBuffers`, `CreateIndexBuffers`, `CreateUniformBuffers`) do
NOT precede `CreateTextureImages` in `InitializeVulkan`: they come after
`LoadModel`. -/
theorem init_buffers_not_before_textures :
    ¬ (initIndex .createVertexBuffers < initIndex .createTextureImages ∧
       initIndex .createIndexBuffers < initIndex .createTextureImages ∧
       initIndex .createUniformBuffers < initIndex .createTextureImages) := by
  decide

/-- **C4 (amended).** In `InitializeVulkan`, `CreateTextureImages` precedes
`CreateColorResources` and `CreateDepthResources`, which precede
`LoadModel`, which precedes the buffer-creation calls
(`CreateVertexBuffers`, `CreateIndexBuffers`, `CreateUniformBuffers`),
which precede `CreateSyncObjects`; every one of these steps occurs in the
sequence. -/
theorem init_stage_order_amended :
    InitStep.createTextureImages ∈ initializeVulkan ∧
    InitStep.createColorResources ∈ initializeVulkan ∧
    InitStep.createDepthResources ∈ initializeVulkan ∧
    InitStep.loadModel ∈ initializeVulkan ∧
    InitStep.createVertexBuffers ∈ initializeVulkan ∧
    InitStep.createIndexBuffers ∈ initializeVulkan ∧
    InitStep.createUniformBuffers ∈ initializeVulkan ∧
    InitStep.createSyncObjects ∈ initializeVulkan ∧
    initIndex .createTextureImages < initIndex .createColorResources ∧
    initIndex .createTextureImages < initIndex .createDepthResources ∧
    initIndex .createColorResources < initIndex .loadModel ∧
    initIndex .createDepthResources < initIndex .loadModel ∧
    initIndex .loadModel < initIndex .createVertexBuffers ∧
    initIndex .createVertexBuffers < initIndex .createIndexBuffers ∧
    initIndex .createIndexBuffers < initIndex .createUniformBuffers ∧
    initIndex .createUniformBuffers < initIndex .createSyncObjects := by
  decide

/-! ## Swapchain image count theorems -/

/-- **C7.** With no 32-bit overflow, the requested swapchain image count is
`min (minImageCount + 1) maxImageCount` when `maxImageCount > 0` and
`minImageCount + 1` when `maxImageCount = 0`; it strictly exceeds
`minImageCount` unless the clamp applies, and never exceeds a nonzero
`maxImageCount`. -/
theorem chooseImageCount_spec (minC maxC : Nat) (hmin : minC + 1 < u32Mod) :
    (maxC > 0 → chooseImageCount minC maxC = min (minC + 1) maxC) ∧
    (maxC = 0 → chooseImageCount minC maxC = minC + 1) ∧
    (¬ (maxC > 0 ∧ minC + 1 > maxC) → chooseImageCount minC maxC > minC) ∧
    (maxC > 0 → chooseImageCount minC maxC ≤ maxC) := by
  have h1 : (minC + 1) % u32Mod = minC + 1 := Nat.mod_eq_of_lt hmin
  unfold chooseImageCount
  simp only [h1]
  split_ifs with h <;> omega

/-- Witness for `chooseImageCount_spec`: `minImageCount = 2`,
`maxImageCount = 3` requests `min 3 3 = 3` images. -/
theorem chooseImageCount_spec_witness :
    2 + 1 < u32Mod ∧ chooseImageCount 2 3 = min (2 + 1) 3 :=
  ⟨by norm_num [u32Mod],
   (chooseImageCount_spec 2 3 (by norm_num [u32Mod])).1 (by norm_num)⟩

end VulkanTutorial
